import Mathlib

/-!
Shallow embedding of `src/main.cpp` of the `ownverter-islanded` repository:
the periodic control task of an open-loop islanded inverter
(measurement intake with hold-last-value, phase integration modulo 2π,
flat duty-cycle computation, and the IDLE/POWER mode state machine with the
edge-triggered `power_enable` flag guarding power-stage start/stop calls).

Real-valued quantities of the code (float32) are modelled over ℚ.
Angles are represented by their coefficient of π: a state field
`v_angle = c` stands for the angle `c · π` radians, so the code's wrap
into [0, 2π) becomes a wrap of the coefficient into [0, 2), which is
exact rational arithmetic.  Shared globals written asynchronously by the
user-interface task (`mode`, `v_freq`, `duty_amplitude`) and the per-cycle
sensor readings are modelled as per-cycle inputs to the control step.
-/

/-- Control task period in seconds (`T_control = 100e-6F`, main.cpp line 57). -/
def T_control : ℚ := 100 / 1000000

/-- Duty cycle offset (`duty_offset = 0.0`, main.cpp line 64). -/
def duty_offset : ℚ := 0

/-- `IDLE_MODE = 0` of the `serial_interface_menu_mode` enum (main.cpp line 78). -/
def IDLE_MODE : ℕ := 0

/-- `POWER_MODE = 1` of the `serial_interface_menu_mode` enum (main.cpp line 79). -/
def POWER_MODE : ℕ := 1

/-- Modelled from the spec: `ot_modulo_2pi` belongs to the OwnTech control
library, whose code is not under `src/`; §4.2 of the spec states that the
phase is wrapped "into [0, 2π) via a modulo-2π operation (not a conditional
subtraction, to remain correct for any overshoot magnitude)".  In
coefficient-of-π units the wrap into [0, 2π) is the wrap into [0, 2). -/
def ot_modulo_2pi (c : ℚ) : ℚ := c - 2 * (⌊c / 2⌋ : ℚ)

/-- The measurement channels of main.cpp lines 90-99: the five raw stored
values (`Ia`, `Ib`, `Ic`, `I_high`, `V_high`) and the low-pass filtered
`V_high_filt`. -/
structure Meas where
  Ia : ℚ
  Ib : ℚ
  Ic : ℚ
  I_high : ℚ
  V_high : ℚ
  V_high_filt : ℚ
deriving DecidableEq, Repr

/-- One cycle's sensor outputs: `shield.sensors.getLatestValue` for the five
channels, `none` standing for the `NO_VALUE` sentinel. -/
structure Readings where
  i1_low : Option ℚ
  i2_low : Option ℚ
  i3_low : Option ℚ
  i_high : Option ℚ
  v_high : Option ℚ
deriving DecidableEq, Repr

/-- Modelled from the spec: `LowPassFirstOrderFilter.calculateWithReturn`
comes from the OwnTech control library, whose code is not under `src/`;
§4.1 describes it as a single-pole low-pass filter with fixed time constant
advanced once per cycle, modelled here by one forward-Euler step.  No claim
depends on the exact discretisation. -/
def lowpassStep (tau T y x : ℚ) : ℚ := y + (T / tau) * (x - y)

/-- Time constant of the `vHigh_filter` (`5.0e-3F`, main.cpp line 98). -/
def vHigh_tau : ℚ := 5 / 1000

/-- The update of one channel in `read_measurements`: the stored value is
overwritten iff the sensor returned a value other than the `NO_VALUE`
sentinel (`if (meas_data != NO_VALUE) { ... = meas_data; }`). -/
def updateChannel (old : ℚ) : Option ℚ → ℚ
  | some v => v
  | none => old

/-- `read_measurements` (main.cpp lines 220-250): each of the five channels
holds its last value on the sentinel and is overwritten otherwise; then
`V_high_filt` is advanced from the (possibly updated) `V_high`. -/
def read_measurements (r : Readings) (m : Meas) : Meas :=
  let Ia := updateChannel m.Ia r.i1_low
  let Ib := updateChannel m.Ib r.i2_low
  let Ic := updateChannel m.Ic r.i3_low
  let I_high := updateChannel m.I_high r.i_high
  let V_high := updateChannel m.V_high r.v_high
  { Ia := Ia, Ib := Ib, Ic := Ic, I_high := I_high, V_high := V_high,
    V_high_filt := lowpassStep vHigh_tau T_control m.V_high_filt V_high }

/-- State of the control core: the `power_enable` flag, the phase angle
(coefficient of π), the three duty commands and the measurement channels
(main.cpp lines 62, 71-72, 90-99). -/
structure CtrlState where
  power_enable : Bool
  v_angle : ℚ
  duty_a : ℚ
  duty_b : ℚ
  duty_c : ℚ
  meas : Meas
deriving DecidableEq, Repr

/-- Per-cycle input of the control step: the user-requested `mode` byte and
the shared reference parameters `v_freq` and `duty_amplitude` (written
asynchronously by the user-interface task), plus the cycle's sensor
readings. -/
structure CtrlInput where
  mode : ℕ
  v_freq : ℚ
  duty_amplitude : ℚ
  readings : Readings
deriving DecidableEq, Repr

/-- `compute_duties` (main.cpp lines 257-266): advance the phase by
`ω·T = 2π·f·T` and wrap modulo 2π (in coefficient-of-π units: advance by
`2·f·T` and wrap modulo 2), then set all three duties to
`duty_offset + duty_amplitude` (the flat placeholder). -/
def compute_duties (freq amp : ℚ) (s : CtrlState) : CtrlState :=
  let omega := 2 * freq
  { s with
    v_angle := ot_modulo_2pi (s.v_angle + omega * T_control)
    duty_a := duty_offset + amp
    duty_b := duty_offset + amp
    duty_c := duty_offset + amp }

/-- A call issued to the power-stage driver `shield.power`.  `setDutyCycle`
carries the leg number (1, 2, 3 for `LEG1`, `LEG2`, `LEG3`) and the value. -/
inductive PowerCall where
  | start : PowerCall
  | stop : PowerCall
  | setDutyCycle : ℕ → ℚ → PowerCall
deriving DecidableEq, Repr

/-- `control_task` (main.cpp lines 277-302): read measurements, compute
duties, then dispatch on the requested mode.  Returns the new state and the
list of power-stage calls issued this cycle, in issue order. -/
def control_task (i : CtrlInput) (s : CtrlState) : CtrlState × List PowerCall :=
  let s0 := { s with meas := read_measurements i.readings s.meas }
  let s1 := compute_duties i.v_freq i.duty_amplitude s0
  if i.mode = IDLE_MODE then
    if s1.power_enable then
      ({ s1 with power_enable := false }, [PowerCall.stop])
    else
      ({ s1 with power_enable := false }, [])
  else if i.mode = POWER_MODE then
    let duties := [PowerCall.setDutyCycle 1 s1.duty_a,
                   PowerCall.setDutyCycle 2 s1.duty_b,
                   PowerCall.setDutyCycle 3 s1.duty_c]
    if s1.power_enable then
      (s1, duties)
    else
      ({ s1 with power_enable := true }, duties ++ [PowerCall.start])
  else
    (s1, [])

/-- Initial state at board startup: all static variables zero-initialised,
`power_enable = false` (main.cpp lines 62, 65, 71-72, 90-99). -/
def initState : CtrlState :=
  { power_enable := false, v_angle := 0, duty_a := 0, duty_b := 0, duty_c := 0,
    meas := { Ia := 0, Ib := 0, Ic := 0, I_high := 0, V_high := 0, V_high_filt := 0 } }

/-- Run the control task over a list of per-cycle inputs, collecting the
per-cycle call lists. -/
def runTrace (s : CtrlState) : List CtrlInput → CtrlState × List (List PowerCall)
  | [] => (s, [])
  | i :: is =>
    let r := control_task i s
    let rest := runTrace r.1 is
    (rest.1, r.2 :: rest.2)

/-- All power-stage calls issued over a run, flattened in issue order. -/
def runCalls (s : CtrlState) (ins : List CtrlInput) : List PowerCall :=
  (runTrace s ins).2.flatten

/-- Whether a call is a `start` call. -/
def isStart : PowerCall → Bool
  | PowerCall.start => true
  | _ => false

/-- Whether a call is a `stop` call. -/
def isStop : PowerCall → Bool
  | PowerCall.stop => true
  | _ => false

/-- Whether a call is a `setDutyCycle` call. -/
def isSetDuty : PowerCall → Bool
  | PowerCall.setDutyCycle _ _ => true
  | _ => false

/-- Number of `start` calls in a call list. -/
def countStart (cs : List PowerCall) : ℕ := (cs.filter isStart).length

/-- Number of `stop` calls in a call list. -/
def countStop (cs : List PowerCall) : ℕ := (cs.filter isStop).length

/-- Number of `setDutyCycle` calls in a call list. -/
def countSetDuty (cs : List PowerCall) : ℕ := (cs.filter isSetDuty).length

/-- The start/stop events of a call list, in order. -/
def switchEvents (cs : List PowerCall) : List PowerCall :=
  cs.filter (fun c => isStart c || isStop c)

/-- The stored value of measurement channel `k` (0 = `Ia`, 1 = `Ib`,
2 = `Ic`, 3 = `I_high`, 4 = `V_high`). -/
def chanVal (k : Fin 5) (m : Meas) : ℚ :=
  match k with
  | ⟨0, _⟩ => m.Ia
  | ⟨1, _⟩ => m.Ib
  | ⟨2, _⟩ => m.Ic
  | ⟨3, _⟩ => m.I_high
  | ⟨4, _⟩ => m.V_high

/-- The sensor output feeding measurement channel `k` (0 = `I1_LOW`,
1 = `I2_LOW`, 2 = `I3_LOW`, 3 = `I_HIGH`, 4 = `V_HIGH`). -/
def chanReading (k : Fin 5) (r : Readings) : Option ℚ :=
  match k with
  | ⟨0, _⟩ => r.i1_low
  | ⟨1, _⟩ => r.i2_low
  | ⟨2, _⟩ => r.i3_low
  | ⟨3, _⟩ => r.i_high
  | ⟨4, _⟩ => r.v_high

/-- Iterate `read_measurements` over the sensor outputs of N consecutive
cycles. -/
def readMany (m : Meas) : List Readings → Meas
  | [] => m
  | r :: rs => readMany (read_measurements r m) rs

/-- A cycle's readings in which every sensor returns the `NO_VALUE` sentinel. -/
def noReadings : Readings :=
  { i1_low := none, i2_low := none, i3_low := none, i_high := none, v_high := none }

/-- Concrete POWER-mode input (f = 50 Hz, amplitude 1/2, no fresh samples). -/
def inPower : CtrlInput :=
  { mode := POWER_MODE, v_freq := 50, duty_amplitude := 1/2, readings := noReadings }

/-- Concrete IDLE-mode input (f = 50 Hz, amplitude 1/2, no fresh samples). -/
def inIdle : CtrlInput :=
  { mode := IDLE_MODE, v_freq := 50, duty_amplitude := 1/2, readings := noReadings }

/-- Concrete POWER-mode input with an out-of-range amplitude 3/2 > 1. -/
def inPowerBig : CtrlInput :=
  { mode := POWER_MODE, v_freq := 50, duty_amplitude := 3/2, readings := noReadings }

/-- Concrete input with an unknown mode byte 2 (neither IDLE nor POWER). -/
def inMode2 : CtrlInput :=
  { mode := 2, v_freq := 50, duty_amplitude := 1/2,
    readings := { i1_low := some 1, i2_low := none, i3_low := some 2,
                  i_high := none, v_high := some 3 } }

/-- Concrete measurement state for the C4 witness: `Ia = 7`, rest zero. -/
def m7 : Meas :=
  { Ia := 7, Ib := 0, Ic := 0, I_high := 0, V_high := 0, V_high_filt := 0 }

/-- Concrete readings for the C4 witness: a fresh (out-of-range) sample 9
on channel `I1_LOW` only. -/
def rNine : Readings :=
  { i1_low := some 9, i2_low := none, i3_low := none, i_high := none, v_high := none }

/-- The flag value determined by replaying a call history: `start` sets it,
`stop` clears it, duty calls leave it. -/
def stepFlag (b : Bool) : PowerCall → Bool
  | PowerCall.start => true
  | PowerCall.stop => false
  | PowerCall.setDutyCycle _ _ => b

/-- Replay a whole call history from a given flag value. -/
def foldFlag (b : Bool) (cs : List PowerCall) : Bool := cs.foldl stepFlag b

/-- POWER-mode input with amplitude `amp` (f = 50 Hz, no fresh samples). -/
def powerIn (amp : ℚ) : CtrlInput :=
  { mode := POWER_MODE, v_freq := 50, duty_amplitude := amp, readings := noReadings }

/-- IDLE-mode input with amplitude `amp` (f = 50 Hz, no fresh samples). -/
def idleIn (amp : ℚ) : CtrlInput :=
  { mode := IDLE_MODE, v_freq := 50, duty_amplitude := amp, readings := noReadings }

/-- The mode-toggle scenario: starting from the initial IDLE state, 4 cycles
with requested modes POWER, POWER, IDLE, IDLE. -/
def modeToggleInputs (amp : ℚ) : List CtrlInput :=
  [powerIn amp, powerIn amp, idleIn amp, idleIn amp]

/-- Input with the frequency held at 50 Hz (IDLE mode, no fresh samples). -/
def in50 : CtrlInput :=
  { mode := IDLE_MODE, v_freq := 50, duty_amplitude := 0, readings := noReadings }

/-! ### Helper lemmas about the modulo-2π wrap (coefficient-of-π units) -/

lemma ot_modulo_2pi_nonneg (c : ℚ) : 0 ≤ ot_modulo_2pi c := by
  have h := Int.floor_le (c / 2)
  unfold ot_modulo_2pi
  linarith

lemma ot_modulo_2pi_lt_two (c : ℚ) : ot_modulo_2pi c < 2 := by
  have h := Int.lt_floor_add_one (c / 2)
  unfold ot_modulo_2pi
  linarith

lemma ot_modulo_2pi_eq_self (c : ℚ) (h0 : 0 ≤ c) (h2 : c < 2) :
    ot_modulo_2pi c = c := by
  have hf : ⌊c / 2⌋ = 0 := by
    rw [Int.floor_eq_zero_iff]
    constructor
    · linarith
    · linarith
  unfold ot_modulo_2pi
  rw [hf]
  ring

lemma ot_modulo_2pi_add_two (c : ℚ) : ot_modulo_2pi (c + 2) = ot_modulo_2pi c := by
  have hf : ⌊(c + 2) / 2⌋ = ⌊c / 2⌋ + 1 := by
    have : (c + 2) / 2 = c / 2 + (1 : ℤ) := by push_cast; ring
    rw [this, Int.floor_add_int]
  unfold ot_modulo_2pi
  rw [hf]
  push_cast
  ring

lemma ot_modulo_2pi_idem_add (a b : ℚ) :
    ot_modulo_2pi (ot_modulo_2pi a + b) = ot_modulo_2pi (a + b) := by
  unfold ot_modulo_2pi
  have hf : ⌊(a - 2 * (⌊a / 2⌋ : ℚ) + b) / 2⌋ = ⌊(a + b) / 2⌋ - ⌊a / 2⌋ := by
    have : (a - 2 * (⌊a / 2⌋ : ℚ) + b) / 2 = (a + b) / 2 - (⌊a / 2⌋ : ℤ) := by
      ring
    rw [this, Int.floor_sub_int]
  rw [hf]
  push_cast
  ring

/-! ### Projection lemmas for one control step -/

lemma control_task_v_angle (i : CtrlInput) (s : CtrlState) :
    (control_task i s).1.v_angle
      = ot_modulo_2pi (s.v_angle + 2 * i.v_freq * T_control) := by
  unfold control_task compute_duties
  dsimp only
  split_ifs <;> rfl

lemma control_task_meas (i : CtrlInput) (s : CtrlState) :
    (control_task i s).1.meas = read_measurements i.readings s.meas := by
  unfold control_task compute_duties
  dsimp only
  split_ifs <;> rfl

lemma control_task_duty (i : CtrlInput) (s : CtrlState) :
    (control_task i s).1.duty_a = duty_offset + i.duty_amplitude
      ∧ (control_task i s).1.duty_b = duty_offset + i.duty_amplitude
      ∧ (control_task i s).1.duty_c = duty_offset + i.duty_amplitude := by
  unfold control_task compute_duties
  dsimp only
  split_ifs <;> exact ⟨rfl, rfl, rfl⟩

/-- Claim C2: for every control cycle (hence after each update of any
sequence of cycles, with any frequency), the phase angle `v_angle` — in
radians, `coefficient · π` — lies in the half-open interval [0, 2π): each
cycle adds `2π·f·T` and wraps with the modulo-2π operation. -/
theorem C2_phase_wrap_invariant (s : CtrlState) (i : CtrlInput) :
    0 ≤ ((control_task i s).1.v_angle : ℝ) * Real.pi ∧
    ((control_task i s).1.v_angle : ℝ) * Real.pi < 2 * Real.pi := by
  have hv := control_task_v_angle i s
  have h0 : (0 : ℚ) ≤ (control_task i s).1.v_angle := by
    rw [hv]; exact ot_modulo_2pi_nonneg _
  have h2 : (control_task i s).1.v_angle < 2 := by
    rw [hv]; exact ot_modulo_2pi_lt_two _
  have h0R : (0 : ℝ) ≤ ((control_task i s).1.v_angle : ℝ) := by exact_mod_cast h0
  have h2R : ((control_task i s).1.v_angle : ℝ) < 2 := by exact_mod_cast h2
  constructor
  · exact mul_nonneg h0R Real.pi_pos.le
  · exact mul_lt_mul_of_pos_right h2R Real.pi_pos

/-- Claim C8: on every cycle the three duty commands are all equal to
`duty_offset + duty_amplitude`, independent of the phase angle (flat
placeholder); with `duty_offset` fixed at 0 the duty command equals the
amplitude parameter directly. -/
theorem C8_flat_duty_placeholder (freq amp : ℚ) (s : CtrlState) (i : CtrlInput) :
    (compute_duties freq amp s).duty_a = duty_offset + amp
    ∧ (compute_duties freq amp s).duty_b = duty_offset + amp
    ∧ (compute_duties freq amp s).duty_c = duty_offset + amp
    ∧ duty_offset = 0
    ∧ (compute_duties freq amp s).duty_a = amp
    ∧ (control_task i s).1.duty_a = i.duty_amplitude
    ∧ (control_task i s).1.duty_b = i.duty_amplitude
    ∧ (control_task i s).1.duty_c = i.duty_amplitude := by
  obtain ⟨ha, hb, hc⟩ := control_task_duty i s
  refine ⟨rfl, rfl, rfl, rfl, ?_, ?_, ?_, ?_⟩
  · show duty_offset + amp = amp
    simp [duty_offset]
  · rw [ha]; simp [duty_offset]
  · rw [hb]; simp [duty_offset]
  · rw [hc]; simp [duty_offset]

/-! ### Case lemmas for the mode dispatch of one control step -/

lemma control_task_power_mode (i : CtrlInput) (s : CtrlState) (h : i.mode = POWER_MODE) :
    (control_task i s).2
      = [PowerCall.setDutyCycle 1 (duty_offset + i.duty_amplitude),
         PowerCall.setDutyCycle 2 (duty_offset + i.duty_amplitude),
         PowerCall.setDutyCycle 3 (duty_offset + i.duty_amplitude)]
        ++ (if s.power_enable then [] else [PowerCall.start])
      ∧ (control_task i s).1.power_enable = true := by
  unfold control_task compute_duties
  dsimp only
  rw [h]
  cases hp : s.power_enable <;> simp [IDLE_MODE, POWER_MODE, hp]

lemma control_task_idle_mode (i : CtrlInput) (s : CtrlState) (h : i.mode = IDLE_MODE) :
    (control_task i s).2 = (if s.power_enable then [PowerCall.stop] else [])
      ∧ (control_task i s).1.power_enable = false := by
  unfold control_task compute_duties
  dsimp only
  rw [h]
  cases hp : s.power_enable <;> simp [IDLE_MODE, hp]

lemma control_task_other_mode (i : CtrlInput) (s : CtrlState)
    (h0 : i.mode ≠ IDLE_MODE) (h1 : i.mode ≠ POWER_MODE) :
    (control_task i s).2 = []
      ∧ (control_task i s).1.power_enable = s.power_enable := by
  unfold control_task compute_duties
  dsimp only
  simp [h0, h1]

/-- Claim C5: in every POWER cycle the three per-leg `setDutyCycle` calls come
first (before any `start` call), duty pushes happen regardless of the enable
flag (the trailing `start` appears exactly when the flag was false), and an
IDLE cycle issues no `setDutyCycle` call. -/
theorem C5_duties_before_start (s : CtrlState) (i : CtrlInput) :
    (i.mode = POWER_MODE →
      (control_task i s).2
        = [PowerCall.setDutyCycle 1 (duty_offset + i.duty_amplitude),
           PowerCall.setDutyCycle 2 (duty_offset + i.duty_amplitude),
           PowerCall.setDutyCycle 3 (duty_offset + i.duty_amplitude)]
          ++ (if s.power_enable then [] else [PowerCall.start]))
    ∧ (i.mode = IDLE_MODE → countSetDuty (control_task i s).2 = 0) := by
  constructor
  · intro h
    exact (control_task_power_mode i s h).1
  · intro h
    rw [(control_task_idle_mode i s h).1]
    cases s.power_enable <;> simp [countSetDuty, isSetDuty]

/-- Witness for C5 at concrete inputs: a POWER cycle from the initial
(disabled) state issues the three duty pushes and then `start`; an IDLE
cycle issues no duty push. -/
theorem C5_duties_before_start_witness :
    (control_task inPower initState).2
      = [PowerCall.setDutyCycle 1 (duty_offset + (1/2 : ℚ)),
         PowerCall.setDutyCycle 2 (duty_offset + (1/2 : ℚ)),
         PowerCall.setDutyCycle 3 (duty_offset + (1/2 : ℚ))]
        ++ [PowerCall.start]
    ∧ countSetDuty (control_task inIdle initState).2 = 0 := by
  constructor
  · have h := (C5_duties_before_start initState inPower).1 rfl
    simpa [initState, inPower] using h
  · exact (C5_duties_before_start initState inIdle).2 rfl

/-- Claim C7: in every POWER cycle the value passed to each `setDutyCycle`
call is exactly the computed duty command `duty_offset + duty_amplitude`,
for every amplitude value — no clamping or validation before dispatch. -/
theorem C7_no_clamping (s : CtrlState) (i : CtrlInput) (h : i.mode = POWER_MODE) :
    (control_task i s).2.take 3
      = [PowerCall.setDutyCycle 1 (duty_offset + i.duty_amplitude),
         PowerCall.setDutyCycle 2 (duty_offset + i.duty_amplitude),
         PowerCall.setDutyCycle 3 (duty_offset + i.duty_amplitude)]
    ∧ (control_task i s).1.duty_a = duty_offset + i.duty_amplitude
    ∧ (control_task i s).1.duty_b = duty_offset + i.duty_amplitude
    ∧ (control_task i s).1.duty_c = duty_offset + i.duty_amplitude := by
  obtain ⟨ha, hb, hc⟩ := control_task_duty i s
  refine ⟨?_, ha, hb, hc⟩
  rw [(control_task_power_mode i s h).1]
  cases s.power_enable <;> simp

/-- Witness for C7: with amplitude 3/2, outside [0, 1], the dispatched values
are exactly `duty_offset + 3/2`, unmodified. -/
theorem C7_no_clamping_witness :
    (1 : ℚ) < 3/2
    ∧ (control_task inPowerBig initState).2.take 3
        = [PowerCall.setDutyCycle 1 (duty_offset + (3/2 : ℚ)),
           PowerCall.setDutyCycle 2 (duty_offset + (3/2 : ℚ)),
           PowerCall.setDutyCycle 3 (duty_offset + (3/2 : ℚ))] := by
  refine ⟨by norm_num, ?_⟩
  exact (C7_no_clamping initState inPowerBig rfl).1

/-- Claim C10: a cycle whose requested mode byte is neither `IDLE_MODE` (0)
nor `POWER_MODE` (1) issues no power-stage call at all and leaves the
`power_enable` flag unchanged, while the measurements and the phase angle
still update as in every cycle. -/
theorem C10_unknown_mode_frame (s : CtrlState) (i : CtrlInput)
    (h0 : i.mode ≠ IDLE_MODE) (h1 : i.mode ≠ POWER_MODE) :
    (control_task i s).2 = []
    ∧ (control_task i s).1.power_enable = s.power_enable
    ∧ (control_task i s).1.meas = read_measurements i.readings s.meas
    ∧ (control_task i s).1.v_angle
        = ot_modulo_2pi (s.v_angle + 2 * i.v_freq * T_control) := by
  obtain ⟨hc, hp⟩ := control_task_other_mode i s h0 h1
  exact ⟨hc, hp, control_task_meas i s, control_task_v_angle i s⟩

/-- Witness for C10 at mode byte 2: no calls, flag unchanged, measurements
and phase updated. -/
theorem C10_unknown_mode_frame_witness :
    (control_task inMode2 initState).2 = []
    ∧ (control_task inMode2 initState).1.power_enable = initState.power_enable
    ∧ (control_task inMode2 initState).1.meas
        = read_measurements inMode2.readings initState.meas
    ∧ (control_task inMode2 initState).1.v_angle
        = ot_modulo_2pi (initState.v_angle + 2 * inMode2.v_freq * T_control) :=
  C10_unknown_mode_frame initState inMode2 (by decide) (by decide)

/-! ### Hold-last-value (claim C4) -/

lemma read_measurements_chan (k : Fin 5) (r : Readings) (m : Meas) :
    chanVal k (read_measurements r m)
      = updateChannel (chanVal k m) (chanReading k r) := by
  fin_cases k <;> rfl

lemma readMany_hold (k : Fin 5) :
    ∀ (rs : List Readings) (m : Meas),
      (∀ r2 ∈ rs, chanReading k r2 = none) →
      chanVal k (readMany m rs) = chanVal k m
  | [], _, _ => rfl
  | r :: rs, m, h => by
    have h1 : chanReading k r = none := h r (List.mem_cons_self r rs)
    have ih := readMany_hold k rs (read_measurements r m)
      (fun r2 hr2 => h r2 (List.mem_cons_of_mem r hr2))
    rw [readMany, ih, read_measurements_chan, h1]
    rfl

/-- Claim C4: for every measurement channel and every cycle, a `NO_VALUE`
sentinel leaves the channel's stored value exactly unchanged (and N
consecutive sentinel cycles leave it equal to the value before the
sequence), while a numeric reading overwrites it unconditionally, with no
range validation (every value `v` is accepted). -/
theorem C4_hold_last_value (k : Fin 5) (m : Meas) (r : Readings) :
    (chanReading k r = none → chanVal k (read_measurements r m) = chanVal k m)
    ∧ (∀ v, chanReading k r = some v → chanVal k (read_measurements r m) = v)
    ∧ (∀ rs : List Readings, (∀ r2 ∈ rs, chanReading k r2 = none) →
        chanVal k (readMany m rs) = chanVal k m) := by
  refine ⟨?_, ?_, fun rs h => readMany_hold k rs m h⟩
  · intro h
    rw [read_measurements_chan, h]
    rfl
  · intro v h
    rw [read_measurements_chan, h]
    rfl

/-- Witness for C4 on channel 0 (`Ia`): sentinel holds the value 7, three
sentinel cycles still hold it, and a numeric sample 9 overwrites it. -/
theorem C4_hold_last_value_witness :
    chanVal 0 (read_measurements noReadings m7) = chanVal 0 m7
    ∧ chanVal 0 (read_measurements rNine m7) = 9
    ∧ chanVal 0 (readMany m7 [noReadings, noReadings, noReadings]) = chanVal 0 m7 :=
  ⟨(C4_hold_last_value 0 m7 noReadings).1 rfl,
   (C4_hold_last_value 0 m7 rNine).2.1 9 rfl,
   (C4_hold_last_value 0 m7 noReadings).2.2 [noReadings, noReadings, noReadings]
     (by decide)⟩

/-! ### The stage-enabled flag vs the start/stop call history (claim C3) -/

lemma runCalls_cons (s : CtrlState) (i : CtrlInput) (ins : List CtrlInput) :
    runCalls s (i :: ins)
      = (control_task i s).2 ++ runCalls (control_task i s).1 ins := by
  simp [runCalls, runTrace]

lemma runTrace_fst_cons (s : CtrlState) (i : CtrlInput) (ins : List CtrlInput) :
    (runTrace s (i :: ins)).1 = (runTrace (control_task i s).1 ins).1 := rfl

lemma foldFlag_append (b : Bool) (cs ds : List PowerCall) :
    foldFlag b (cs ++ ds) = foldFlag (foldFlag b cs) ds := by
  simp [foldFlag, List.foldl_append]

lemma foldFlag_getLast (cs : List PowerCall) (b : Bool) :
    foldFlag b cs
      = match (switchEvents cs).getLast? with
        | some PowerCall.start => true
        | some _ => false
        | none => b := by
  induction cs using List.reverseRecOn with
  | nil => rfl
  | append_singleton cs c ih =>
    rw [foldFlag_append]
    have hs : switchEvents (cs ++ [c]) = switchEvents cs ++ switchEvents [c] := by
      simp [switchEvents]
    cases c with
    | start =>
      have : switchEvents [PowerCall.start] = [PowerCall.start] := rfl
      rw [hs, this, List.getLast?_concat]
      rfl
    | stop =>
      have : switchEvents [PowerCall.stop] = [PowerCall.stop] := rfl
      rw [hs, this, List.getLast?_concat]
      rfl
    | setDutyCycle leg v =>
      have : switchEvents [PowerCall.setDutyCycle leg v] = [] := rfl
      rw [hs, this, List.append_nil]
      exact ih

lemma control_task_flag_foldFlag (i : CtrlInput) (s : CtrlState) :
    (control_task i s).1.power_enable
      = foldFlag s.power_enable (control_task i s).2 := by
  unfold control_task compute_duties
  dsimp only
  split_ifs with h1 h2 h2 h3 <;>
    simp_all [foldFlag, stepFlag]

lemma runTrace_flag :
    ∀ (ins : List CtrlInput) (s : CtrlState),
      (runTrace s ins).1.power_enable = foldFlag s.power_enable (runCalls s ins)
  | [], _ => rfl
  | i :: ins, s => by
    rw [runTrace_fst_cons, runTrace_flag ins (control_task i s).1,
        control_task_flag_foldFlag, ← foldFlag_append, ← runCalls_cons]

/-- Claim C3: in every reachable state of any execution from the initial
state (flag false), the `power_enable` flag is true iff a start command has
been issued and no matching stop has been issued since — i.e. iff the last
start/stop event of the call history is a `start`. -/
theorem C3_flag_iff_started (ins : List CtrlInput) :
    ((runTrace initState ins).1.power_enable = true)
      ↔ (switchEvents (runCalls initState ins)).getLast? = some PowerCall.start := by
  rw [runTrace_flag, foldFlag_getLast]
  cases h : (switchEvents (runCalls initState ins)).getLast? with
  | none => simp [initState]
  | some c => cases c <;> simp

/-! ### Start/stop idempotence over a POWER run (claim C1) -/

lemma runTrace_length (ins : List CtrlInput) :
    ∀ s : CtrlState, (runTrace s ins).2.length = ins.length := by
  induction ins with
  | nil => intro s; rfl
  | cons i ins ih =>
    intro s
    simp [runTrace, ih]

lemma filter_flatten_nil (p : PowerCall → Bool) (L : List (List PowerCall)) :
    (∀ cs ∈ L, (cs.filter p).length = 0) → ((List.flatten L).filter p).length = 0 := by
  induction L with
  | nil => intro _; rfl
  | cons c L ih =>
    intro h
    rw [List.flatten_cons, List.filter_append, List.length_append]
    rw [h c (List.mem_cons_self c L), ih (fun cs hcs => h cs (List.mem_cons_of_mem c hcs))]

lemma runTrace_power_enabled :
    ∀ (ins : List CtrlInput) (s : CtrlState),
      (∀ i ∈ ins, i.mode = POWER_MODE) → s.power_enable = true →
      (runTrace s ins).1.power_enable = true
      ∧ ∀ cs ∈ (runTrace s ins).2,
          countStart cs = 0 ∧ countStop cs = 0 ∧ countSetDuty cs = 3
  | [], s, _, hs => ⟨hs, by simp [runTrace]⟩
  | i :: ins, s, h, hs => by
    obtain ⟨hcalls, hflag⟩ := control_task_power_mode i s (h i (List.mem_cons_self i ins))
    rw [hs, if_pos rfl, List.append_nil] at hcalls
    obtain ⟨ih1, ih2⟩ := runTrace_power_enabled ins (control_task i s).1
      (fun j hj => h j (List.mem_cons_of_mem i hj)) hflag
    refine ⟨ih1, ?_⟩
    intro cs hcs
    rw [show (runTrace s (i :: ins)).2 = (control_task i s).2 :: (runTrace (control_task i s).1 ins).2 from rfl] at hcs
    rcases List.mem_cons.mp hcs with hcs | hcs
    · subst hcs
      rw [hcalls]
      refine ⟨rfl, rfl, rfl⟩
    · exact ih2 cs hcs

/-- Claim C1: starting from a cycle where the flag is false, N consecutive
POWER cycles issue exactly one `start` (in the first cycle: the later cycles
issue none), issue `setDutyCycle` calls on every one of the N cycles and no
`stop`; a subsequent single IDLE cycle issues exactly one `stop` call; and an
IDLE cycle in which the flag is already false issues no `stop` call at all. -/
theorem C1_start_stop_idempotence
    (N : ℕ) (hN : 1 ≤ N) (s : CtrlState) (hs : s.power_enable = false)
    (ins : List CtrlInput) (hlen : ins.length = N)
    (hmode : ∀ i ∈ ins, i.mode = POWER_MODE) :
    countStart (runCalls s ins) = 1
    ∧ (∀ cs ∈ (runTrace s ins).2.tail, countStart cs = 0)
    ∧ (∀ cs ∈ (runTrace s ins).2, 1 ≤ countSetDuty cs)
    ∧ (runTrace s ins).2.length = N
    ∧ countStop (runCalls s ins) = 0
    ∧ (∀ j : CtrlInput, j.mode = IDLE_MODE →
        (control_task j (runTrace s ins).1).2 = [PowerCall.stop])
    ∧ (∀ (s0 : CtrlState) (j : CtrlInput),
        s0.power_enable = false → j.mode = IDLE_MODE → (control_task j s0).2 = []) := by
  cases ins with
  | nil => simp at hlen; omega
  | cons i ins =>
    obtain ⟨hc0, hf0⟩ := control_task_power_mode i s (hmode i (List.mem_cons_self i ins))
    rw [hs, if_neg (by simp)] at hc0
    obtain ⟨hflag, hrest⟩ := runTrace_power_enabled ins (control_task i s).1
      (fun j hj => hmode j (List.mem_cons_of_mem i hj)) hf0
    have htrace : (runTrace s (i :: ins)).2
        = (control_task i s).2 :: (runTrace (control_task i s).1 ins).2 := rfl
    have hfin : (runTrace s (i :: ins)).1 = (runTrace (control_task i s).1 ins).1 := rfl
    refine ⟨?_, ?_, ?_, ?_, ?_, ?_, ?_⟩
    · rw [runCalls_cons, countStart, List.filter_append, List.length_append]
      have h1 : countStart (control_task i s).2 = 1 := by
        rw [hc0]; rfl
      have h2 := filter_flatten_nil isStart _ (fun cs hcs => (hrest cs hcs).1)
      rw [countStart] at h1
      rw [h1, runCalls, h2]
    · intro cs hcs
      rw [htrace] at hcs
      exact (hrest cs hcs).1
    · intro cs hcs
      rw [htrace] at hcs
      rcases List.mem_cons.mp hcs with hcs | hcs
      · subst hcs
        rw [hc0]
        norm_num [countSetDuty, isSetDuty]
      · rw [(hrest cs hcs).2.2]
        norm_num
    · rw [runTrace_length]
      exact hlen
    · rw [runCalls_cons, countStop, List.filter_append, List.length_append]
      have h1 : countStop (control_task i s).2 = 0 := by
        rw [hc0]; rfl
      have h2 := filter_flatten_nil isStop _ (fun cs hcs => (hrest cs hcs).2.1)
      rw [countStop] at h1
      rw [h1, runCalls, h2]
    · intro j hj
      rw [(control_task_idle_mode j (runTrace s (i :: ins)).1 hj).1, hfin, hflag,
        if_pos rfl]
    · intro s0 j h0 hj
      rw [(control_task_idle_mode j s0 hj).1, h0, if_neg (by simp)]

/-- Witness for C1 with N = 1 from the initial state: one `start` over the
POWER cycle, a following IDLE cycle yields exactly `[stop]`, and an IDLE
cycle with the flag already false yields no call. -/
theorem C1_start_stop_idempotence_witness :
    countStart (runCalls initState [inPower]) = 1
    ∧ (control_task inIdle (runTrace initState [inPower]).1).2 = [PowerCall.stop]
    ∧ (control_task inIdle initState).2 = [] := by
  have h := C1_start_stop_idempotence 1 (by norm_num) initState rfl [inPower] rfl
    (by decide)
  exact ⟨h.1, h.2.2.2.2.2.1 inIdle rfl, h.2.2.2.2.2.2 initState inIdle rfl rfl⟩

/-! ### Mode-toggle scenario (claim C6) -/

/-- Counterexample to C6 as stated: the scenario does not produce the call
sequence `[start, set_duty, set_duty, stop]` (for any legs and values) — the
code issues the duty pushes of the first POWER cycle before `start`, and
three per-leg pushes per POWER cycle, eight calls in total. -/
theorem C6_mode_toggle_counterexample :
    ¬ ∃ (l1 : ℕ) (v1 : ℚ) (l2 : ℕ) (v2 : ℚ),
        runCalls initState (modeToggleInputs (1/2))
          = [PowerCall.start, PowerCall.setDutyCycle l1 v1,
             PowerCall.setDutyCycle l2 v2, PowerCall.stop] := by
  rintro ⟨l1, v1, l2, v2, h⟩
  have hlen : (runCalls initState (modeToggleInputs (1/2))).length = 8 := by decide
  rw [h] at hlen
  simp at hlen

/-- Claim C6 as amended: the scenario IDLE→POWER→POWER→IDLE→IDLE over 4
cycles from the initial state produces exactly the call sequence
[setDuty leg1, setDuty leg2, setDuty leg3, start,
 setDuty leg1, setDuty leg2, setDuty leg3, stop] — the per-leg duty pushes
of each POWER cycle preceding the single `start`, with no duplicate `start`
or `stop` call. -/
theorem C6_mode_toggle_amended (amp : ℚ) :
    runCalls initState (modeToggleInputs amp)
      = [PowerCall.setDutyCycle 1 (duty_offset + amp),
         PowerCall.setDutyCycle 2 (duty_offset + amp),
         PowerCall.setDutyCycle 3 (duty_offset + amp),
         PowerCall.start,
         PowerCall.setDutyCycle 1 (duty_offset + amp),
         PowerCall.setDutyCycle 2 (duty_offset + amp),
         PowerCall.setDutyCycle 3 (duty_offset + amp),
         PowerCall.stop]
    ∧ countStart (runCalls initState (modeToggleInputs amp)) = 1
    ∧ countStop (runCalls initState (modeToggleInputs amp)) = 1 := by
  have e0 : initState.power_enable = false := rfl
  obtain ⟨hc1, hf1⟩ := control_task_power_mode (powerIn amp) initState rfl
  rw [e0, if_neg (by simp)] at hc1
  obtain ⟨hc2, hf2⟩ := control_task_power_mode (powerIn amp)
    (control_task (powerIn amp) initState).1 rfl
  rw [hf1, if_pos rfl, List.append_nil] at hc2
  obtain ⟨hc3, hf3⟩ := control_task_idle_mode (idleIn amp)
    (control_task (powerIn amp) (control_task (powerIn amp) initState).1).1 rfl
  rw [hf2, if_pos rfl] at hc3
  obtain ⟨hc4, _⟩ := control_task_idle_mode (idleIn amp)
    (control_task (idleIn amp)
      (control_task (powerIn amp) (control_task (powerIn amp) initState).1).1).1 rfl
  rw [hf3, if_neg (by simp)] at hc4
  have key : runCalls initState (modeToggleInputs amp)
      = [PowerCall.setDutyCycle 1 (duty_offset + amp),
         PowerCall.setDutyCycle 2 (duty_offset + amp),
         PowerCall.setDutyCycle 3 (duty_offset + amp),
         PowerCall.start,
         PowerCall.setDutyCycle 1 (duty_offset + amp),
         PowerCall.setDutyCycle 2 (duty_offset + amp),
         PowerCall.setDutyCycle 3 (duty_offset + amp),
         PowerCall.stop] := by
    show runCalls initState (powerIn amp :: powerIn amp :: idleIn amp :: idleIn amp :: []) = _
    rw [runCalls_cons, runCalls_cons, runCalls_cons, runCalls_cons, hc1, hc2, hc3, hc4]
    rfl
  refine ⟨key, ?_, ?_⟩ <;> rw [key] <;> rfl

/-! ### 50 Hz numeric example (claim C9) -/

lemma runTrace_angle_replicate (i : CtrlInput) :
    ∀ (n : ℕ) (s : CtrlState),
      (runTrace s (List.replicate (n + 1) i)).1.v_angle
        = ot_modulo_2pi (s.v_angle + (n + 1) * (2 * i.v_freq * T_control))
  | 0, s => by
    rw [show List.replicate 1 i = [i] from rfl]
    rw [show (runTrace s [i]).1 = (control_task i s).1 from rfl]
    rw [control_task_v_angle]
    norm_num
  | n + 1, s => by
    rw [List.replicate_succ, runTrace_fst_cons,
      runTrace_angle_replicate i n (control_task i s).1, control_task_v_angle,
      ot_modulo_2pi_idem_add]
    congr 1
    push_cast
    ring

/-- Claim C9: with the frequency held at 50 Hz and the control period at
100 µs, the per-cycle phase increment (in radians, `coefficient · π`) equals
`2π·50·100e-6` (= π/100 ≈ 0.0314159 rad), and after 200 cycles — one full
50 Hz period — the wrapped phase angle returns exactly to its starting
value (which, by the C2 invariant, lies in [0, 2π), i.e. coefficient in
[0, 2)). -/
theorem C9_fifty_hz_period_return (s : CtrlState)
    (h0 : 0 ≤ s.v_angle) (h2 : s.v_angle < 2) :
    ((2 * (50 : ℚ) * T_control : ℚ) : ℝ) * Real.pi
        = 2 * Real.pi * 50 * (100 / 1000000)
    ∧ (control_task in50 s).1.v_angle
        = ot_modulo_2pi (s.v_angle + 2 * 50 * T_control)
    ∧ (runTrace s (List.replicate 200 in50)).1.v_angle = s.v_angle := by
  refine ⟨?_, ?_, ?_⟩
  · rw [T_control]
    push_cast
    ring
  · exact control_task_v_angle in50 s
  · rw [show (200 : ℕ) = 199 + 1 from rfl, runTrace_angle_replicate in50 199 s]
    rw [show ((199 : ℕ) + 1 : ℚ) * (2 * CtrlInput.v_freq in50 * T_control) = 2 by
      rw [T_control]; norm_num [in50]]
    rw [ot_modulo_2pi_add_two]
    exact ot_modulo_2pi_eq_self s.v_angle h0 h2

/-- Witness for C9 from the initial state (angle 0): after 200 cycles at
50 Hz the phase angle is again exactly 0. -/
theorem C9_fifty_hz_period_return_witness :
    0 ≤ initState.v_angle ∧ initState.v_angle < 2
    ∧ (runTrace initState (List.replicate 200 in50)).1.v_angle = initState.v_angle :=
  ⟨by norm_num [initState], by norm_num [initState],
   (C9_fifty_hz_period_return initState (by norm_num [initState])
     (by norm_num [initState])).2.2⟩
